import Mathlib

/-!
Verification of the 16s gut-health analytics pipeline.

Each definition below is a shallow embedding of a function of the
repository (scripts/analysis/1_basic_analysis.py, 2_enterotype.py,
3_bacteria_eval.py, 4_disease_risk.py, 5_age_predict.py).  Machine floats
are modelled by rationals (or reals where a logarithm occurs), pandas NaN
cells by Option, and read counts by natural numbers, following the data
model of the specification (non-negative integer read counts for one
designated sample column).
-/

namespace BigHealth

/-! ## String handling used by the taxon abundance index

Python code: `taxon = str(row[level]) if pd.notna(row[level]) else ''`,
then `taxon.replace(level[0].lower() + '__', '').strip()`, and the fuzzy
match `name.lower() in taxon.lower() or taxon.lower() in name.lower()`.
Strings are modelled as lists of characters so that every operation is a
structural recursion the kernel can evaluate. -/

/-- Python str.lower, character by character (taxon names are ASCII). -/
def lowerChars (s : List Char) : List Char := s.map Char.toLower

/-- Python str.strip: whitespace removed from both ends. -/
def trimChars (s : List Char) : List Char :=
  ((s.dropWhile Char.isWhitespace).reverse.dropWhile Char.isWhitespace).reverse

/-- Python str.replace with empty replacement: delete every
non-overlapping occurrence of pat, scanning left to right.  The first
argument is fuel, always called with the length of the scanned list. -/
def dropPatternFuel (pat : List Char) : Nat → List Char → List Char
  | _, [] => []
  | 0, s => s
  | Nat.succ n, c :: rest =>
      if pat ≠ [] ∧ pat.isPrefixOf (c :: rest) then
        dropPatternFuel pat n ((c :: rest).drop pat.length)
      else
        c :: dropPatternFuel pat n rest

/-- Python s.replace(pat, ''). -/
def dropPattern (pat s : List Char) : List Char := dropPatternFuel pat s.length s

/-- Python substring containment: small in big. -/
def containsSub (small : List Char) : List Char → Bool
  | [] => small.isEmpty
  | c :: rest => small.isPrefixOf (c :: rest) || containsSub small rest

/-- The bidirectional fuzzy match of _get_bacteria_abundance:
query in label or label in query, both lowercased. -/
def fuzzyMatch (query label : List Char) : Bool :=
  containsSub (lowerChars query) (lowerChars label) ||
  containsSub (lowerChars label) (lowerChars query)

/-- Cleaning of one taxonomy cell: NaN becomes the empty string, then the
rank marker (for the Genus column the string g__) is removed and the
result stripped. -/
def cleanLabel (marker : List Char) (v : Option String) : List Char :=
  trimChars (dropPattern marker (match v with | some s => s.toList | none => []))

/-! ## The abundance table and the taxon abundance index -/

/-- One row of the abundance table as one query rank sees it: the cell of
that rank column (none models NaN) and the read count of the designated
sample column. -/
structure TaxRow where
  label : Option String
  count : Nat
deriving DecidableEq

/-- The abundance table for one query rank: whether the rank column is
present at all, and the rows. -/
structure AbundanceTable where
  hasRank : Bool
  rows : List TaxRow
deriving DecidableEq

/-- The row filter of _get_bacteria_abundance: the cleaned cell
fuzzy-matches the queried name. -/
def rowMatches (marker : List Char) (query : String) (r : TaxRow) : Bool :=
  fuzzyMatch query.toList (cleanLabel marker r.label)

/-- Total reads of the sample column. -/
def totalReads (rows : List TaxRow) : Nat := (rows.map TaxRow.count).sum

/-- Reads accumulated over the rows whose cell matches the query. -/
def matchedReads (marker : List Char) (query : String) (rows : List TaxRow) : Nat :=
  ((rows.filter (rowMatches marker query)).map TaxRow.count).sum

/-- The function _get_bacteria_abundance of 3_bacteria_eval.py (identical copies live
in 4_disease_risk.py and 5_age_predict.py): 0 when the rank column is
absent; otherwise matched reads over total reads times 100, or 0 when the
total is 0. -/
def get_bacteria_abundance (tbl : AbundanceTable) (marker : List Char) (query : String) : ℚ :=
  if tbl.hasRank = false then 0
  else if 0 < totalReads tbl.rows then
    (matchedReads marker query tbl.rows : ℚ) / (totalReads tbl.rows : ℚ) * 100
  else 0

/-! ## Bacteria Health Scorer (3_bacteria_eval.py) -/

/-- Letter grades of _get_health_grade. -/
inductive Grade
  | aPlus
  | gradeA
  | gradeB
  | gradeC
  | gradeD
deriving DecidableEq

/-- The grade bands of _get_health_grade. -/
def get_health_grade (score : ℚ) : Grade :=
  if 90 ≤ score then Grade.aPlus
  else if 80 ≤ score then Grade.gradeA
  else if 70 ≤ score then Grade.gradeB
  else if 60 ≤ score then Grade.gradeC
  else Grade.gradeD

/-- calculate_overall_health_score: conditional_penalty is twice the
warning count, and the conditional component is
max(0, 100 - conditional_penalty * 5), weighted 0.2 against 0.4 for the
beneficial score and 0.4 for the harm score. -/
def calculate_overall_health_score (beneficial_score harm_score : ℚ) (warning_count : Nat) : ℚ :=
  beneficial_score * (4/10) + harm_score * (4/10) +
    max 0 (100 - ((warning_count : ℚ) * 2) * 5) * (2/10)

/-- The claim formula for the overall score, written from the words of
the specification: 0.4 x beneficial + 0.4 x harm +
0.2 x max(0, 100 - 5 x warning_count). -/
def overallScoreClaim (beneficial_score harm_score : ℚ) (warning_count : Nat) : ℚ :=
  (4/10) * beneficial_score + (4/10) * harm_score +
    (2/10) * max 0 (100 - 5 * (warning_count : ℚ))

/-- The amended formula: the conditional component subtracts 10 points
per warning, not 5. -/
def overallScoreAmended (beneficial_score harm_score : ℚ) (warning_count : Nat) : ℚ :=
  (4/10) * beneficial_score + (4/10) * harm_score +
    (2/10) * max 0 (100 - 10 * (warning_count : ℚ))

/-- The grade bands as the claim words them: A+ at 90 and above, A at 80,
B at 70, C at 60, D below. -/
def gradeClaim (score : ℚ) : Grade :=
  if score ≥ 90 then Grade.aPlus
  else if score ≥ 80 then Grade.gradeA
  else if score ≥ 70 then Grade.gradeB
  else if score ≥ 60 then Grade.gradeC
  else Grade.gradeD

/-- evaluate_conditional_bacteria, reduced to what downstream code reads:
each conditional taxon contributes a warning when its abundance exceeds
the max of its range, and attention_needed is set when more than three
warnings accumulated.  A pair is (abundance, max threshold). -/
structure CondEval where
  warning_count : Nat
  attention_needed : Bool
deriving DecidableEq

/-- The warning counter and flag of evaluate_conditional_bacteria. -/
def evaluate_conditional_bacteria (pairs : List (ℚ × ℚ)) : CondEval :=
  { warning_count := (pairs.filter (fun p => decide (p.2 < p.1))).length,
    attention_needed := decide (3 < (pairs.filter (fun p => decide (p.2 < p.1))).length) }

/-- Recommendation category tags of generate_recommendations. -/
inductive RecCategory
  | probioticSupplement
  | suppressHarmful
  | immuneRegulate
deriving DecidableEq

/-- generate_recommendations: a probiotic tag when the beneficial overall
score is below 60, a harmful-suppression tag when the harm score is below
70, an immune-regulation tag when attention_needed is set. -/
def generate_recommendations (beneficial_score harm_score : ℚ) (cond : CondEval) :
    List RecCategory :=
  (if beneficial_score < 60 then [RecCategory.probioticSupplement] else []) ++
  (if harm_score < 70 then [RecCategory.suppressHarmful] else []) ++
  (if cond.attention_needed then [RecCategory.immuneRegulate] else [])

/-! ## Disease Risk Assessor (4_disease_risk.py) -/

/-- Risk levels of assess_disease_risk. -/
inductive RiskLevel
  | low
  | medium
  | high
deriving DecidableEq

/-- The per-disease risk score of assess_disease_risk, from the
beneficial score, harmful score and disease weight: raw risk is harmful
minus beneficial, normalized into [0, 100] around 50, then weighted and
capped at 100. -/
def assess_final_risk (beneficial_score harmful_score weight : ℚ) : ℚ :=
  min 100 (max 0 (min 100 (50 + (harmful_score - beneficial_score) * 2)) * weight)

/-- The risk-level bands of assess_disease_risk. -/
def risk_level_of (final_risk : ℚ) : RiskLevel :=
  if final_risk < 30 then RiskLevel.low
  else if final_risk < 60 then RiskLevel.medium
  else RiskLevel.high

/-- Clamp as the specification words it. -/
def clampQ (x lo hi : ℚ) : ℚ := max lo (min hi x)

/-- The claim formula for the final risk, written from the words of the
specification: raw_risk = h - b, normalized_risk = clamp(50 + 2 x raw, 0,
100), final = min(100, normalized x w). -/
def finalRiskClaim (b h w : ℚ) : ℚ :=
  min 100 (clampQ (50 + 2 * (h - b)) 0 100 * w)

/-- The risk bands as the claim words them. -/
def riskLevelClaim (r : ℚ) : RiskLevel :=
  if r < 30 then RiskLevel.low else if r < 60 then RiskLevel.medium else RiskLevel.high

/-! ## Enterotype Classifier (2_enterotype.py) -/

/-- The three community-type indicators, in the enumeration order of the
dominant_genera dict: Bacteroides, Prevotella, Ruminococcus. -/
inductive Indicator
  | bacteroides
  | prevotella
  | ruminococcus
deriving DecidableEq

/-- Confidence tiers of _calculate_confidence. -/
inductive Confidence
  | low
  | medium
  | high
deriving DecidableEq

/-- The value of an indicator among the triple (b, p, r). -/
def indicatorValue (b p r : ℚ) : Indicator → ℚ
  | Indicator.bacteroides => b
  | Indicator.prevotella => p
  | Indicator.ruminococcus => r

/-- The dominant-indicator selection of determine_enterotype: Python
max(dominant_genera, key=dominant_genera.get) keeps the current key
unless a later value is strictly greater, so the first key of the
insertion order wins ties. -/
def determine_dominant (b p r : ℚ) : Indicator :=
  if r > (if p > b then p else b) then Indicator.ruminococcus
  else if p > b then Indicator.prevotella
  else Indicator.bacteroides

/-- The tiers of _calculate_confidence: low when the total is 0; high when the
maximal value exceeds half of the total; medium when it exceeds 0.33 of
the total; low otherwise. -/
def calculate_confidence (b p r : ℚ) : Confidence :=
  if b + p + r = 0 then Confidence.low
  else if max b (max p r) / (b + p + r) > 1/2 then Confidence.high
  else if max b (max p r) / (b + p + r) > 33/100 then Confidence.medium
  else Confidence.low

/-- The dominant indicator as the claim words it: the indicator with the
maximum value, ties resolved toward the first of the enumeration order. -/
def dominantClaim (b p r : ℚ) : Indicator :=
  if b = max b (max p r) then Indicator.bacteroides
  else if p = max b (max p r) then Indicator.prevotella
  else Indicator.ruminococcus

/-- The confidence as the claim words it: from the value of the winning
indicator against the sum of the three values. -/
def confidenceClaim (b p r : ℚ) : Confidence :=
  if b + p + r = 0 then Confidence.low
  else if indicatorValue b p r (dominantClaim b p r) > (b + p + r) / 2 then Confidence.high
  else if indicatorValue b p r (dominantClaim b p r) > (b + p + r) * 33 / 100 then
    Confidence.medium
  else Confidence.low

/-! ## Diversity Analyzer (1_basic_analysis.py) -/

/-- calculate_alpha_diversity first removes the zero counts. -/
def posCounts (counts : List Nat) : List Nat :=
  counts.filter (fun c => decide (0 < c))

/-- The total of a list of counts, as a real number. -/
noncomputable def sumReals (l : List Nat) : ℝ :=
  (l.map (fun (c : Nat) => (c : ℝ))).sum

/-- The Shannon index of calculate_alpha_diversity: proportions are each
positive count over the total of the positive counts, and the index is
the negated sum of p times ln p. -/
noncomputable def shannonOf (counts : List Nat) : ℝ :=
  -(((posCounts counts).map (fun (c : Nat) =>
      (c : ℝ) / sumReals (posCounts counts) *
        Real.log ((c : ℝ) / sumReals (posCounts counts)))).sum)

/-- The Simpson index of calculate_alpha_diversity: one minus the sum of
squared proportions. -/
noncomputable def simpsonOf (counts : List Nat) : ℝ :=
  1 - (((posCounts counts).map (fun (c : Nat) =>
      ((c : ℝ) / sumReals (posCounts counts)) ^ 2)).sum)

/-- The observed taxon count: the number of positive counts. -/
def observedOf (counts : List Nat) : Nat := (posCounts counts).length

/-- The number of counts equal to 1 among the positive counts. -/
def singletonsOf (counts : List Nat) : Nat :=
  ((posCounts counts).filter (fun c => decide (c = 1))).length

/-- The number of counts equal to 2 among the positive counts. -/
def doubletonsOf (counts : List Nat) : Nat :=
  ((posCounts counts).filter (fun c => decide (c = 2))).length

/-- The Chao1 estimator of calculate_alpha_diversity: observed plus
singletons squared over twice the doubletons when doubletons exist, else
observed plus singletons x (singletons - 1) / 2 when singletons exceed 1,
else observed. -/
def chao1Of (counts : List Nat) : ℚ :=
  if 0 < doubletonsOf counts then
    (observedOf counts : ℚ) + (singletonsOf counts : ℚ) ^ 2 / (2 * (doubletonsOf counts : ℚ))
  else if 1 < singletonsOf counts then
    (observedOf counts : ℚ) + (singletonsOf counts : ℚ) * ((singletonsOf counts : ℚ) - 1) / 2
  else (observedOf counts : ℚ)

/-! ## The Bacteroidetes/Firmicutes quotient (calculate_bf_ratio of
1_basic_analysis.py) -/

/-- A row as calculate_bf_ratio sees it: the Phylum cell (none models
NaN) and the sample read count. -/
structure BfRow where
  phylum : Option String
  count : Nat
deriving DecidableEq

/-- Status bands of the B/F computation. -/
inductive BfStatus
  | normal
  | lowBF
  | highBF
  | cannotCompute
deriving DecidableEq

/-- The record calculate_bf_ratio stores under bf_ratio. -/
structure BfResult where
  value : Option ℚ
  bacteroidetes : Nat
  firmicutes : Nat
  status : BfStatus
deriving DecidableEq

/-- The per-phylum accumulation of calculate_bf_ratio, already summed
over a set of target names: a row contributes when its Phylum cell is
present, is not the string Unclassified, and once the p__ marker is
removed and the name stripped it equals one of the targets. -/
def bfTotal (targets : List (List Char)) (rows : List BfRow) : Nat :=
  ((rows.filter (fun r =>
      match r.phylum with
      | some s =>
          decide (s ≠ "Unclassified") &&
            targets.contains (trimChars (dropPattern "p__".toList s.toList))
      | none => false)).map BfRow.count).sum

/-- The Bacteroidetes-matching phylum total. -/
def bacteroidetesTotal (rows : List BfRow) : Nat :=
  bfTotal ["Bacteroidetes".toList, "Bacteroidota".toList] rows

/-- The Firmicutes-matching phylum total. -/
def firmicutesTotal (rows : List BfRow) : Nat :=
  bfTotal ["Firmicutes".toList, "Bacillota".toList] rows

/-- calculate_bf_ratio of 1_basic_analysis.py (the Phylum column present).
When the Firmicutes total is positive the quotient is computed and given
a status band; the stored value field then applies Python truthiness:
float(bf_ratio) if bf_ratio else None, so a quotient of 0 is stored as
None.  When the Firmicutes total is 0 the value is None and the status is
the cannot-compute marker. -/
def calculate_bf_value (rows : List BfRow) : BfResult :=
  if 0 < firmicutesTotal rows then
    { value :=
        if (bacteroidetesTotal rows : ℚ) / (firmicutesTotal rows : ℚ) ≠ 0 then
          some ((bacteroidetesTotal rows : ℚ) / (firmicutesTotal rows : ℚ))
        else none,
      bacteroidetes := bacteroidetesTotal rows,
      firmicutes := firmicutesTotal rows,
      status :=
        if 84/100 ≤ (bacteroidetesTotal rows : ℚ) / (firmicutesTotal rows : ℚ) ∧
            (bacteroidetesTotal rows : ℚ) / (firmicutesTotal rows : ℚ) ≤ 494/100 then
          BfStatus.normal
        else if (bacteroidetesTotal rows : ℚ) / (firmicutesTotal rows : ℚ) < 84/100 then
          BfStatus.lowBF
        else BfStatus.highBF }
  else
    { value := none,
      bacteroidetes := bacteroidetesTotal rows,
      firmicutes := firmicutesTotal rows,
      status := BfStatus.cannotCompute }

/-! ## Age Predictor (5_age_predict.py) -/

/-- A youth-associated marker: a signed weight and an optimal range. -/
structure YouthMarker where
  weight : ℚ
  optMin : ℚ
  optMax : ℚ
deriving DecidableEq

/-- An aging-associated marker: a positive weight and one threshold. -/
structure AgingMarker where
  weight : ℚ
  threshold : ℚ
deriving DecidableEq

/-- The age marker database: named youth markers, named aging markers,
and the baseline age. -/
structure AgeMarkers where
  youth : List (String × YouthMarker)
  aging : List (String × AgingMarker)
  baseline_age : ℚ
deriving DecidableEq

/-- The youth-marker score of predict_biological_age: 1 inside the
optimal range; abundance over the minimum below it (0 when the minimum is
0); max(0, 1 - (abundance - max)/max) above it. -/
def youthMarkerScore (abundance : ℚ) (m : YouthMarker) : ℚ :=
  if m.optMin ≤ abundance ∧ abundance ≤ m.optMax then 1
  else if abundance < m.optMin then
    (if 0 < m.optMin then abundance / m.optMin else 0)
  else max 0 (1 - (abundance - m.optMax) / m.optMax)

/-- The aging-marker score of predict_biological_age: min(2,
abundance/threshold) above the threshold, else 0. -/
def agingMarkerScore (abundance : ℚ) (m : AgingMarker) : ℚ :=
  if m.threshold < abundance then min 2 (abundance / m.threshold) else 0

/-- The record of predict_biological_age. -/
structure AgePrediction where
  biological_age : ℚ
  age_adjustment : ℚ
  youth_score : ℚ
  aging_score : ℚ
deriving DecidableEq

/-- predict_biological_age: every youth marker adds score x weight to the
adjustment and score x |weight| to the youth score; every aging marker
adds score x weight to both the adjustment and the aging score; the
biological age is the baseline plus the adjustment, clamped to [20, 90].
The chronological age is not an input of this computation. -/
def predict_biological_age (tbl : AbundanceTable) (mk : AgeMarkers) : AgePrediction :=
  { biological_age :=
      max 20 (min 90 (mk.baseline_age +
        ((mk.youth.map (fun q =>
            youthMarkerScore (get_bacteria_abundance tbl "g__".toList q.1) q.2 *
              q.2.weight)).sum +
         (mk.aging.map (fun q =>
            agingMarkerScore (get_bacteria_abundance tbl "g__".toList q.1) q.2 *
              q.2.weight)).sum))),
    age_adjustment :=
      (mk.youth.map (fun q =>
          youthMarkerScore (get_bacteria_abundance tbl "g__".toList q.1) q.2 *
            q.2.weight)).sum +
      (mk.aging.map (fun q =>
          agingMarkerScore (get_bacteria_abundance tbl "g__".toList q.1) q.2 *
            q.2.weight)).sum,
    youth_score :=
      (mk.youth.map (fun q =>
          youthMarkerScore (get_bacteria_abundance tbl "g__".toList q.1) q.2 *
            |q.2.weight|)).sum,
    aging_score :=
      (mk.aging.map (fun q =>
          agingMarkerScore (get_bacteria_abundance tbl "g__".toList q.1) q.2 *
            q.2.weight)).sum }

/-- The age-status labels of analyze_age_status: the three comparison
labels used when a chronological age is compared, and the four
biological-age bands used when none is. -/
inductive AgeLabel
  | youngerState
  | olderState
  | sameAgeState
  | youngType
  | midType
  | matureType
  | oldType
deriving DecidableEq

/-- The age_status record: the label and, when a comparison was made, the
signed difference biological minus chronological. -/
structure AgeStatus where
  label : AgeLabel
  age_difference : Option ℚ
deriving DecidableEq

/-- The biological-age bands of the no-chronological-age branch of
analyze_age_status. -/
def bioAgeBand (bio : ℚ) : AgeLabel :=
  if bio < 35 then AgeLabel.youngType
  else if bio < 50 then AgeLabel.midType
  else if bio < 65 then AgeLabel.matureType
  else AgeLabel.oldType

/-- analyze_age_status: the chronological age is an optional integer, and
the comparison branch is guarded by Python truthiness (if
chronological_age:), so a supplied age of 0 falls through to the
biological-age bands exactly as an absent age does. -/
def analyze_age_status (bio : ℚ) (chron : Option ℤ) : AgeStatus :=
  match chron with
  | some c =>
      if c ≠ 0 then
        if bio - (c : ℚ) < -5 then
          { label := AgeLabel.youngerState, age_difference := some (bio - (c : ℚ)) }
        else if 5 < bio - (c : ℚ) then
          { label := AgeLabel.olderState, age_difference := some (bio - (c : ℚ)) }
        else
          { label := AgeLabel.sameAgeState, age_difference := some (bio - (c : ℚ)) }
      else { label := bioAgeBand bio, age_difference := none }
  | none => { label := bioAgeBand bio, age_difference := none }

/-- One run of the Age Predictor stage: the prediction record and the
status record. -/
structure AgeRun where
  prediction : AgePrediction
  status : AgeStatus
deriving DecidableEq

/-- The stage as main runs it: predict_biological_age then
analyze_age_status on the predicted biological age. -/
def run_age_stage (tbl : AbundanceTable) (mk : AgeMarkers) (chron : Option ℤ) : AgeRun :=
  { prediction := predict_biological_age tbl mk,
    status := analyze_age_status (predict_biological_age tbl mk).biological_age chron }

/-- The status record as the claim words it for a supplied chronological
age: the signed difference bio minus chron, labelled younger below -5,
older above +5, same-age otherwise. -/
def ageStatusClaim (bio : ℚ) (c : ℤ) : AgeStatus :=
  if bio - (c : ℚ) < -5 then
    { label := AgeLabel.youngerState, age_difference := some (bio - (c : ℚ)) }
  else if bio - (c : ℚ) > 5 then
    { label := AgeLabel.olderState, age_difference := some (bio - (c : ℚ)) }
  else { label := AgeLabel.sameAgeState, age_difference := some (bio - (c : ℚ)) }

/-! ## Theorems -/

/-- C1 counterexample: at beneficial score 100, harm score 100 and one
conditional warning, calculate_overall_health_score returns 98 while the
claim formula 0.4 x 100 + 0.4 x 100 + 0.2 x max(0, 100 - 5 x 1) gives
99, so the claim formula does not describe the code. -/
theorem C1_counterexample :
    calculate_overall_health_score 100 100 1 ≠ overallScoreClaim 100 100 1 := by
  unfold calculate_overall_health_score overallScoreClaim
  norm_num

/-- C1 (amended): the overall health score is 0.4 x beneficial + 0.4 x
harm + 0.2 x max(0, 100 - 10 x warning_count) -- each warning costs 10
points of the conditional component, not 5 -- and the letter grade bands
are as claimed: A+ at and above 90, A at 80, B at 70, C at 60, D below. -/
theorem C1_overall_score_and_grade (b h s : ℚ) (w : Nat) :
    calculate_overall_health_score b h w = overallScoreAmended b h w ∧
    get_health_grade s = gradeClaim s := by
  constructor
  · unfold calculate_overall_health_score overallScoreAmended
    have hm : (100 : ℚ) - ((w : ℚ) * 2) * 5 = 100 - 10 * (w : ℚ) := by ring
    rw [hm]; ring
  · rfl

/-- C3: the Disease Risk Assessor computes the final risk exactly as the
claim states (raw risk h - b, clamped normalization, weight, cap at 100),
its level bands are below 30 low, below 60 medium, high otherwise, and
the instance w = 1.5, b = 5, h = 5 yields final risk 75, level high. -/
theorem C3_disease_risk (b h w : ℚ) (hw : 1 ≤ w) :
    assess_final_risk b h w = finalRiskClaim b h w ∧
    risk_level_of (assess_final_risk b h w) = riskLevelClaim (assess_final_risk b h w) ∧
    assess_final_risk 5 5 (3/2) = 75 ∧
    risk_level_of (assess_final_risk 5 5 (3/2)) = RiskLevel.high := by
  refine ⟨?_, rfl, ?_, ?_⟩
  · unfold assess_final_risk finalRiskClaim clampQ
    rw [mul_comm (h - b) 2]
  · unfold assess_final_risk
    norm_num
  · have h75 : assess_final_risk 5 5 (3/2) = 75 := by
      unfold assess_final_risk; norm_num
    rw [h75]
    unfold risk_level_of
    norm_num

/-- C3 witness: the theorem applied at b = 5, h = 5, w = 3/2. -/
theorem C3_disease_risk_witness :
    assess_final_risk 5 5 (3/2) = finalRiskClaim 5 5 (3/2) ∧
    risk_level_of (assess_final_risk 5 5 (3/2)) =
      riskLevelClaim (assess_final_risk 5 5 (3/2)) ∧
    assess_final_risk 5 5 (3/2) = 75 ∧
    risk_level_of (assess_final_risk 5 5 (3/2)) = RiskLevel.high :=
  C3_disease_risk 5 5 (3/2) (by norm_num)

/-- C8 counterexample: with one conditional warning (abundance 1 over
threshold 0) and both sub-scores at 100, the claim says an
immune-regulation tag is emitted (warning count 1 is at least 1), but
generate_recommendations emits none, because the code keys the tag on
attention_needed, which requires more than three warnings. -/
theorem C8_counterexample :
    ¬ (RecCategory.immuneRegulate ∈
        generate_recommendations 100 100 (evaluate_conditional_bacteria [(1, 0)]) ↔
       1 ≤ (evaluate_conditional_bacteria [(1, 0)]).warning_count) := by
  unfold generate_recommendations evaluate_conditional_bacteria
  norm_num

/-- C8 (amended): a probiotic-supplement tag is emitted exactly when the
beneficial overall score is below 60, a harmful-suppression tag exactly
when the harm score is below 70, and an immune-regulation tag exactly
when the conditional warning count exceeds 3 (at least 4 warnings), the
code keying it on the attention_needed flag rather than on the presence
of any warning. -/
theorem C8_recommend_tags (b h : ℚ) (pairs : List (ℚ × ℚ)) :
    (RecCategory.probioticSupplement ∈
        generate_recommendations b h (evaluate_conditional_bacteria pairs) ↔ b < 60) ∧
    (RecCategory.suppressHarmful ∈
        generate_recommendations b h (evaluate_conditional_bacteria pairs) ↔ h < 70) ∧
    (RecCategory.immuneRegulate ∈
        generate_recommendations b h (evaluate_conditional_bacteria pairs) ↔
      4 ≤ (evaluate_conditional_bacteria pairs).warning_count) := by
  unfold generate_recommendations evaluate_conditional_bacteria
  by_cases hb : b < 60 <;> by_cases hh : h < 70 <;>
    by_cases hw : 3 < (pairs.filter (fun p => decide (p.2 < p.1))).length <;>
      simp [hb, hh, hw] <;> omega

/-- The empty query is a substring of everything, as Python has it. -/
theorem containsSub_nil (l : List Char) : containsSub [] l = true := by
  induction l with
  | nil => rfl
  | cons c rest ih => simp [containsSub, List.isPrefixOf]

/-- The reads matched by a query never exceed the total reads. -/
theorem matchedReads_le_totalReads (marker : List Char) (q : String) (rows : List TaxRow) :
    matchedReads marker q rows ≤ totalReads rows := by
  induction rows with
  | nil => simp [matchedReads, totalReads]
  | cons r rs ih =>
      by_cases h : rowMatches marker q r
      · simp only [matchedReads, totalReads, List.filter_cons, h, if_pos, List.map_cons,
          List.sum_cons] at *
        omega
      · simp only [matchedReads, totalReads, List.filter_cons, h, List.map_cons,
          List.sum_cons] at *
        simp only [Bool.false_eq_true, if_false]
        omega

/-- C2: the code stores a null B/F value even though the Firmicutes total
is positive, whenever the Bacteroidetes total is 0: on a table whose one
row has phylum Firmicutes with 10 reads, the quotient 0/10 = 0 is computed
(the status band even reports it as low), yet the stored value field is
None because the serialization guard float(bf_ratio) if bf_ratio else
None treats the float 0.0 as false.  The claim says the value is null
exactly when the Firmicutes total is 0, and 0 here. -/
theorem C2_zero_quotient_stored_null :
    (calculate_bf_value [⟨some "Firmicutes", 10⟩]).value = none ∧
    (calculate_bf_value [⟨some "Firmicutes", 10⟩]).bacteroidetes = 0 ∧
    (calculate_bf_value [⟨some "Firmicutes", 10⟩]).firmicutes = 10 ∧
    (calculate_bf_value [⟨some "Firmicutes", 10⟩]).status = BfStatus.lowBF := by
  have hb : bacteroidetesTotal [⟨some "Firmicutes", 10⟩] = 0 := by decide
  have hf : firmicutesTotal [⟨some "Firmicutes", 10⟩] = 10 := by decide
  unfold calculate_bf_value
  rw [hb, hf]
  norm_num

/-- C4: the Enterotype Classifier picks the indicator with the maximum
value, ties resolved toward the earlier indicator of the enumeration
order (Bacteroides, Prevotella, Ruminococcus); the selected value is the
maximum of the three; and the confidence tier is exactly as claimed: low
when the sum is 0, high when the winning value exceeds half the sum,
medium when it exceeds 33 percent of it, low otherwise. -/
theorem C4_enterotype (b p r : ℚ) (hb : 0 ≤ b) (hp : 0 ≤ p) (hr : 0 ≤ r) :
    determine_dominant b p r = dominantClaim b p r ∧
    indicatorValue b p r (determine_dominant b p r) = max b (max p r) ∧
    calculate_confidence b p r = confidenceClaim b p r := by
  have hd : determine_dominant b p r = dominantClaim b p r ∧
      indicatorValue b p r (determine_dominant b p r) = max b (max p r) := by
    unfold determine_dominant dominantClaim indicatorValue
    rcases le_or_lt p b with hpb | hpb
    · rcases le_or_lt r b with hrb | hrb
      · have hmax : max b (max p r) = b := max_eq_left (max_le hpb hrb)
        simp [not_lt.mpr hpb, not_lt.mpr hrb, hmax]
      · have hmax : max b (max p r) = r := by
          rw [max_eq_right (le_trans hpb (le_of_lt hrb)), max_eq_right (le_of_lt hrb)]
        have hbr : b ≠ r := ne_of_lt hrb
        have hpr : p ≠ r := ne_of_lt (lt_of_le_of_lt hpb hrb)
        simp [not_lt.mpr hpb, hrb, hmax, hbr, hpr]
    · rcases le_or_lt r p with hrp | hrp
      · have hmax : max b (max p r) = p := by
          rw [max_eq_left hrp, max_eq_right (le_of_lt hpb)]
        have hbp : b ≠ p := ne_of_lt hpb
        simp [hpb, not_lt.mpr hrp, hmax, hbp]
      · have hmax : max b (max p r) = r := by
          rw [max_eq_right (le_of_lt hrp), max_eq_right
            (le_of_lt (lt_trans hpb hrp))]
        have hbr : b ≠ r := ne_of_lt (lt_trans hpb hrp)
        have hpr : p ≠ r := ne_of_lt hrp
        simp [hpb, hrp, hmax, hbr, hpr]
  refine ⟨hd.1, hd.2, ?_⟩
  have hval : indicatorValue b p r (dominantClaim b p r) = max b (max p r) := by
    rw [← hd.1]; exact hd.2
  by_cases h0 : b + p + r = 0
  · unfold calculate_confidence confidenceClaim
    rw [if_pos h0, if_pos h0]
  · have ht : 0 < b + p + r :=
      lt_of_le_of_ne (by positivity) (Ne.symm h0)
    unfold calculate_confidence confidenceClaim
    rw [if_neg h0, if_neg h0, hval]
    have h1 : (max b (max p r) / (b + p + r) > 1/2) ↔
        (max b (max p r) > (b + p + r) / 2) := by
      rw [gt_iff_lt, gt_iff_lt, lt_div_iff₀ ht]
      constructor <;> intro hx <;> linarith
    have h2 : (max b (max p r) / (b + p + r) > 33/100) ↔
        (max b (max p r) > (b + p + r) * 33 / 100) := by
      rw [gt_iff_lt, gt_iff_lt, lt_div_iff₀ ht]
      constructor <;> intro hx <;> linarith
    rw [if_congr h1 rfl (if_congr h2 rfl rfl)]

/-- C4 witness: the theorem at the specification example, indicator
values Bacteroides 40, Prevotella 10, Ruminococcus 5. -/
theorem C4_enterotype_witness :
    determine_dominant 40 10 5 = dominantClaim 40 10 5 ∧
    indicatorValue 40 10 5 (determine_dominant 40 10 5) = max 40 (max 10 5) ∧
    calculate_confidence 40 10 5 = confidenceClaim 40 10 5 :=
  C4_enterotype 40 10 5 (by norm_num) (by norm_num) (by norm_num)

/-- C5: every abundance query returns a percentage within [0, 100], and
returns 0 -- rather than failing -- whenever the rank column is absent,
the total read count is 0, or no row matches the queried name. -/
theorem C5_abundance_contract (tbl : AbundanceTable) (marker : List Char) (q : String) :
    0 ≤ get_bacteria_abundance tbl marker q ∧
    get_bacteria_abundance tbl marker q ≤ 100 ∧
    (tbl.hasRank = false → get_bacteria_abundance tbl marker q = 0) ∧
    (totalReads tbl.rows = 0 → get_bacteria_abundance tbl marker q = 0) ∧
    ((∀ row ∈ tbl.rows, rowMatches marker q row = false) →
      get_bacteria_abundance tbl marker q = 0) := by
  unfold get_bacteria_abundance
  by_cases hRank : tbl.hasRank = false
  · rw [if_pos hRank]
    refine ⟨le_refl 0, by norm_num, fun _ => rfl, fun _ => rfl, fun _ => rfl⟩
  · rw [if_neg hRank]
    by_cases hT : 0 < totalReads tbl.rows
    · rw [if_pos hT]
      have htQ : (0 : ℚ) < (totalReads tbl.rows : ℚ) := by exact_mod_cast hT
      refine ⟨by positivity, ?_, fun h => absurd h hRank, fun h => by omega, ?_⟩
      · have hle : (matchedReads marker q tbl.rows : ℚ) ≤ (totalReads tbl.rows : ℚ) := by
          exact_mod_cast matchedReads_le_totalReads marker q tbl.rows
        have hdiv : (matchedReads marker q tbl.rows : ℚ) / (totalReads tbl.rows : ℚ) ≤ 1 :=
          (div_le_one htQ).mpr hle
        calc (matchedReads marker q tbl.rows : ℚ) / (totalReads tbl.rows : ℚ) * 100
            ≤ 1 * 100 := by nlinarith
          _ = 100 := by norm_num
      · intro hnone
        have hm : matchedReads marker q tbl.rows = 0 := by
          unfold matchedReads
          have : tbl.rows.filter (rowMatches marker q) = [] := by
            rw [List.filter_eq_nil_iff]
            intro a ha
            simp [hnone a ha]
          rw [this]; rfl
        rw [hm]
        norm_num
    · rw [if_neg hT]
      refine ⟨le_refl 0, by norm_num, fun _ => rfl, fun _ => rfl, fun _ => rfl⟩

/-- C10: a row whose cell at the queried rank is missing is cleaned to
the empty label, which the bidirectional substring test accepts for every
query, so such a row always passes the row filter and its read count is
added to the numerator of every abundance query at that rank. -/
theorem C10_nan_rows_always_match (marker : List Char) (q : String) (c : Nat)
    (rows : List TaxRow) :
    rowMatches marker q ⟨none, c⟩ = true ∧
    matchedReads marker q (⟨none, c⟩ :: rows) = c + matchedReads marker q rows := by
  have hclean : cleanLabel marker none = [] := rfl
  have hmatch : rowMatches marker q ⟨none, c⟩ = true := by
    unfold rowMatches fuzzyMatch
    rw [hclean]
    have h2 : containsSub (lowerChars []) (lowerChars q.toList) = true := by
      simpa [lowerChars] using containsSub_nil (lowerChars q.toList)
    rw [h2]
    simp
  refine ⟨hmatch, ?_⟩
  unfold matchedReads
  rw [List.filter_cons, if_pos hmatch]
  simp

/-- A list of nonpositive reals has nonpositive sum. -/
theorem list_sum_nonpos {l : List ℝ} (h : ∀ x ∈ l, x ≤ 0) : l.sum ≤ 0 := by
  induction l with
  | nil => simp
  | cons a t ih =>
      have ha := h a (List.mem_cons_self a t)
      have ht := ih (fun x hx => h x (List.mem_cons_of_mem a hx))
      simp only [List.sum_cons]
      linarith

/-- A list of nonpositive reals summing to 0 is all zeros. -/
theorem list_sum_zero_of_nonpos {l : List ℝ} (h : ∀ x ∈ l, x ≤ 0) (hs : l.sum = 0) :
    ∀ x ∈ l, x = 0 := by
  induction l with
  | nil => intro x hx; cases hx
  | cons a t ih =>
      have ha := h a (List.mem_cons_self a t)
      have ht : t.sum ≤ 0 := list_sum_nonpos (fun x hx => h x (List.mem_cons_of_mem a hx))
      simp only [List.sum_cons] at hs
      have ha0 : a = 0 := by linarith
      have hts : t.sum = 0 := by linarith
      intro x hx
      rcases List.mem_cons.mp hx with hx | hx
      · rw [hx, ha0]
      · exact ih (fun y hy => h y (List.mem_cons_of_mem a hy)) hts x hx

/-- The real-valued total of a cons. -/
theorem sumReals_cons (c : Nat) (l : List Nat) :
    sumReals (c :: l) = (c : ℝ) + sumReals l := by
  simp [sumReals]

/-- The real-valued total of positive counts is positive. -/
theorem sumReals_pos {l : List Nat} (h1 : l ≠ []) (h2 : ∀ c ∈ l, 0 < c) :
    0 < sumReals l := by
  cases l with
  | nil => exact absurd rfl h1
  | cons c t =>
      have hc : 0 < (c : ℝ) := by
        exact_mod_cast h2 c (List.mem_cons_self c t)
      have ht : 0 ≤ sumReals t := by
        apply List.sum_nonneg
        intro x hx
        obtain ⟨n, _, rfl⟩ := List.mem_map.mp hx
        positivity
      rw [sumReals_cons]
      linarith

/-- Every count is at most the total. -/
theorem cast_le_sumReals {l : List Nat} {c : Nat} (hc : c ∈ l) :
    (c : ℝ) ≤ sumReals l := by
  apply List.single_le_sum
  · intro x hx
    obtain ⟨n, _, rfl⟩ := List.mem_map.mp hx
    positivity
  · exact List.mem_map_of_mem (fun (c : Nat) => (c : ℝ)) hc

/-- Dividing every count by a constant divides the total. -/
theorem map_div_sum (l : List Nat) (t : ℝ) :
    (l.map (fun (c : Nat) => (c : ℝ) / t)).sum = sumReals l / t := by
  induction l with
  | nil => simp [sumReals]
  | cons c rest ih =>
      rw [List.map_cons, List.sum_cons, ih, sumReals_cons, add_div]

/-- C6: on every nonempty collection of strictly positive counts the
Shannon index is nonnegative, the Simpson index lies in [0, 1), and the
Shannon index vanishes exactly when a single taxon holds all of the reads
(the collection has exactly one taxon). -/
theorem C6_shannon_simpson (counts : List Nat) (h1 : counts ≠ [])
    (h2 : ∀ c ∈ counts, 0 < c) :
    0 ≤ shannonOf counts ∧ 0 ≤ simpsonOf counts ∧ simpsonOf counts < 1 ∧
    (shannonOf counts = 0 ↔ counts.length = 1) := by
  have hfix : posCounts counts = counts := by
    unfold posCounts
    rw [List.filter_eq_self]
    intro a ha
    simpa using h2 a ha
  have htpos : 0 < sumReals counts := sumReals_pos h1 h2
  have htne : sumReals counts ≠ 0 := ne_of_gt htpos
  have hterm_nonpos : ∀ x ∈ counts.map (fun (c : Nat) =>
      (c : ℝ) / sumReals counts * Real.log ((c : ℝ) / sumReals counts)), x ≤ 0 := by
    intro x hx
    obtain ⟨c, hc, rfl⟩ := List.mem_map.mp hx
    have hc0 : 0 < (c : ℝ) := by exact_mod_cast h2 c hc
    have hp0 : 0 ≤ (c : ℝ) / sumReals counts := by positivity
    have hp1 : (c : ℝ) / sumReals counts ≤ 1 :=
      (div_le_one htpos).mpr (cast_le_sumReals hc)
    exact mul_nonpos_of_nonneg_of_nonpos hp0 (Real.log_nonpos hp0 hp1)
  have hshannon : shannonOf counts =
      -((counts.map (fun (c : Nat) =>
        (c : ℝ) / sumReals counts * Real.log ((c : ℝ) / sumReals counts))).sum) := by
    unfold shannonOf
    rw [hfix]
  have hsimpson : simpsonOf counts =
      1 - ((counts.map (fun (c : Nat) => ((c : ℝ) / sumReals counts) ^ 2)).sum) := by
    unfold simpsonOf
    rw [hfix]
  have hsq_le : (counts.map (fun (c : Nat) => ((c : ℝ) / sumReals counts) ^ 2)).sum ≤ 1 := by
    have hle : (counts.map (fun (c : Nat) => ((c : ℝ) / sumReals counts) ^ 2)).sum ≤
        (counts.map (fun (c : Nat) => (c : ℝ) / sumReals counts)).sum := by
      apply List.sum_le_sum
      intro c hc
      have hp0 : 0 ≤ (c : ℝ) / sumReals counts := by positivity
      have hp1 : (c : ℝ) / sumReals counts ≤ 1 :=
        (div_le_one htpos).mpr (cast_le_sumReals hc)
      nlinarith
    rw [map_div_sum, div_self htne] at hle
    exact hle
  have hsq_pos : 0 < (counts.map (fun (c : Nat) => ((c : ℝ) / sumReals counts) ^ 2)).sum := by
    cases counts with
    | nil => exact absurd rfl h1
    | cons c t =>
        rw [List.map_cons, List.sum_cons]
        have hc0 : 0 < (c : ℝ) := by
          exact_mod_cast h2 c (List.mem_cons_self c t)
        have hrest : 0 ≤ (t.map (fun (x : Nat) => ((x : ℝ) / sumReals (c :: t)) ^ 2)).sum := by
          apply List.sum_nonneg
          intro x hx
          obtain ⟨n, _, rfl⟩ := List.mem_map.mp hx
          positivity
        have hhead : 0 < ((c : ℝ) / sumReals (c :: t)) ^ 2 := by positivity
        linarith
  refine ⟨?_, ?_, ?_, ?_⟩
  · rw [hshannon, neg_nonneg]
    exact list_sum_nonpos hterm_nonpos
  · rw [hsimpson]
    linarith
  · rw [hsimpson]
    linarith
  · constructor
    · intro hzero
      have hsum0 : (counts.map (fun (c : Nat) =>
          (c : ℝ) / sumReals counts * Real.log ((c : ℝ) / sumReals counts))).sum = 0 := by
        rw [hshannon] at hzero
        linarith
      have hall := list_sum_zero_of_nonpos hterm_nonpos hsum0
      have heq : ∀ c ∈ counts, (c : ℝ) = sumReals counts := by
        intro c hc
        have hc0 : 0 < (c : ℝ) := by exact_mod_cast h2 c hc
        have hterm : (c : ℝ) / sumReals counts * Real.log ((c : ℝ) / sumReals counts) = 0 :=
          hall _ (List.mem_map_of_mem _ hc)
        have hpne : (c : ℝ) / sumReals counts ≠ 0 := by positivity
        rcases mul_eq_zero.mp hterm with hx | hx
        · exact absurd hx hpne
        · rcases Real.log_eq_zero.mp hx with hx | hx | hx
          · exact absurd hx hpne
          · exact (div_eq_one_iff_eq htne).mp hx
          · exfalso
            have : 0 < (c : ℝ) / sumReals counts := by positivity
            rw [hx] at this
            linarith
      match counts, h1 with
      | [c], _ => rfl
      | c₁ :: c₂ :: rest, _ =>
          exfalso
          have hc1 : (c₁ : ℝ) = sumReals (c₁ :: c₂ :: rest) :=
            heq c₁ (List.mem_cons_self _ _)
          have hc2 : (c₂ : ℝ) = sumReals (c₁ :: c₂ :: rest) :=
            heq c₂ (List.mem_cons_of_mem _ (List.mem_cons_self _ _))
          have hrest : 0 ≤ sumReals rest := by
            apply List.sum_nonneg
            intro x hx
            obtain ⟨n, _, rfl⟩ := List.mem_map.mp hx
            positivity
          have hexp : sumReals (c₁ :: c₂ :: rest) =
              (c₁ : ℝ) + ((c₂ : ℝ) + sumReals rest) := by
            rw [sumReals_cons, sumReals_cons]
          have hpos : 0 < sumReals (c₁ :: c₂ :: rest) := htpos
          linarith [hc1, hc2, hexp, hpos, hrest]
    · intro hlen
      obtain ⟨c, hc⟩ := List.length_eq_one.mp hlen
      subst hc
      have hct : sumReals [c] = (c : ℝ) := by
        rw [sumReals_cons]
        simp [sumReals]
      rw [hshannon, List.map_singleton, List.sum_singleton, hct, div_self, Real.log_one]
      · ring
      · exact_mod_cast ne_of_gt (h2 c (List.mem_cons_self c []))

/-- C6 witness: the theorem at the one-element collection [5]; its
Shannon index is 0 and its Simpson index lies in [0, 1). -/
theorem C6_shannon_simpson_witness :
    0 ≤ shannonOf [5] ∧ 0 ≤ simpsonOf [5] ∧ simpsonOf [5] < 1 ∧
    (shannonOf [5] = 0 ↔ ([5] : List Nat).length = 1) :=
  C6_shannon_simpson [5] (by decide) (by decide)

/-- C7: the Chao1 estimator never falls below the observed taxon count:
each branch adds a nonnegative correction to the observed count. -/
theorem C7_chao1_ge_observed (counts : List Nat) (h1 : counts ≠ [])
    (h2 : ∀ c ∈ counts, 0 < c) :
    (observedOf counts : ℚ) ≤ chao1Of counts := by
  unfold chao1Of
  by_cases hd : 0 < doubletonsOf counts
  · rw [if_pos hd]
    have hnn : (0 : ℚ) ≤ (singletonsOf counts : ℚ) ^ 2 / (2 * (doubletonsOf counts : ℚ)) := by
      positivity
    linarith
  · rw [if_neg hd]
    by_cases hs : 1 < singletonsOf counts
    · rw [if_pos hs]
      have h1s : (1 : ℚ) ≤ (singletonsOf counts : ℚ) := by
        exact_mod_cast le_of_lt hs
      have hnn : (0 : ℚ) ≤
          (singletonsOf counts : ℚ) * ((singletonsOf counts : ℚ) - 1) / 2 := by
        apply div_nonneg _ (by norm_num)
        apply mul_nonneg (by positivity)
        linarith
      linarith
    · rw [if_neg hs]

/-- C7 witness: the theorem at the collection [1, 1]: two observed taxa,
two singletons, no doubletons, Chao1 = 2 + 1 = 3 at least the observed 2. -/
theorem C7_chao1_ge_observed_witness :
    (observedOf [1, 1] : ℚ) ≤ chao1Of [1, 1] :=
  C7_chao1_ge_observed [1, 1] (by decide) (by decide)

/-- C9 counterexample: on an empty marker set with baseline 40 the
biological age is 40; supplying the chronological age 0 should, by the
claim, produce the older label with signed difference +40, but the code
guards the comparison with Python truthiness (if chronological_age:), so
the supplied 0 falls through to the biological-age bands: the status
carries no signed difference and the mid-type band label. -/
theorem C9_counterexample :
    (run_age_stage ⟨true, []⟩ ⟨[], [], 40⟩ (some 0)).status.age_difference = none ∧
    (run_age_stage ⟨true, []⟩ ⟨[], [], 40⟩ (some 0)).status.label = AgeLabel.midType ∧
    ageStatusClaim (run_age_stage ⟨true, []⟩ ⟨[], [], 40⟩ (some 0)).prediction.biological_age
        0 = { label := AgeLabel.olderState, age_difference := some 40 } ∧
    (run_age_stage ⟨true, []⟩ ⟨[], [], 40⟩ (some 0)).status ≠
      ageStatusClaim
        (run_age_stage ⟨true, []⟩ ⟨[], [], 40⟩ (some 0)).prediction.biological_age 0 := by
  have hbio : (predict_biological_age ⟨true, []⟩ ⟨[], [], 40⟩).biological_age = 40 := by
    unfold predict_biological_age
    norm_num
  have hstatus : (run_age_stage ⟨true, []⟩ ⟨[], [], 40⟩ (some 0)).status =
      { label := AgeLabel.midType, age_difference := none } := by
    show analyze_age_status (predict_biological_age ⟨true, []⟩ ⟨[], [], 40⟩).biological_age
        (some 0) = _
    rw [hbio]
    unfold analyze_age_status bioAgeBand
    norm_num
  have hclaim : ageStatusClaim
      (run_age_stage ⟨true, []⟩ ⟨[], [], 40⟩ (some 0)).prediction.biological_age 0 =
      { label := AgeLabel.olderState, age_difference := some 40 } := by
    show ageStatusClaim (predict_biological_age ⟨true, []⟩ ⟨[], [], 40⟩).biological_age 0 = _
    rw [hbio]
    unfold ageStatusClaim
    norm_num
  refine ⟨by rw [hstatus], by rw [hstatus], hclaim, ?_⟩
  rw [hstatus, hclaim]
  intro h
  cases h

/-- C9 (amended): the biological-age number and the whole prediction
record are independent of the supplied chronological age, and for every
nonzero chronological age the status record is exactly the claimed
comparison: signed difference biological minus chronological, younger
below -5, older above +5, same-age otherwise.  A chronological age of 0
is the one exception forced by the counterexample: Python truthiness
treats it as absent, so the status falls back to the biological-age
bands. -/
theorem C9_age_frame (tbl : AbundanceTable) (mk : AgeMarkers) :
    (∀ chron : Option ℤ, (run_age_stage tbl mk chron).prediction =
      (run_age_stage tbl mk none).prediction) ∧
    (∀ c : ℤ, c ≠ 0 → (run_age_stage tbl mk (some c)).status =
      ageStatusClaim (run_age_stage tbl mk none).prediction.biological_age c) := by
  constructor
  · intro chron
    rfl
  · intro c hc
    show analyze_age_status (predict_biological_age tbl mk).biological_age (some c) = _
    simp only [analyze_age_status]
    rw [if_pos hc]
    rfl

end BigHealth
